import Mathlib

/-!
Verification of the `azure-pipelines-ecs-controller-lambda` repository:
a shallow embedding, in Lean 4, of the Go source (main.go, ado.go, ecs.go)
together with theorems settling the frozen specification claims.

Modelling conventions:
* Go strings, slices and structs become Lean `String`, `List`, `structure`s.
* Byte values are `Nat` (< 256); 32-bit words are `Nat` reduced mod 2^32.
* Fallible Go code (`error` returns) becomes `Except String`; `os.Exit` and
  nil-pointer panics are explicit constructors of result types.
* External collaborators (the AWS SDK, the HTTP client, `json.Unmarshal`,
  `os.Getenv`) are oracle functions supplied as parameters, so theorems
  quantify over every possible behaviour of the environment.
-/

/-! ## 32-bit word arithmetic (Go `uint32` as `Nat` mod 2^32) -/

def mask32 : Nat := 4294967295

def add32 (a b : Nat) : Nat := (a + b) % 4294967296

def rotr32 (x n : Nat) : Nat := ((x >>> n) ||| (x <<< (32 - n))) &&& mask32

def not32 (x : Nat) : Nat := x ^^^ mask32

/-! ## SHA-256 (the `crypto/sha256` standard-library digest used by
`GenerateClientToken`, embedded from FIPS 180-4) -/

def sha256K : List Nat :=
  [1116352408, 1899447441, 3049323471, 3921009573, 961987163,
   1508970993, 2453635748, 2870763221, 3624381080, 310598401,
   607225278, 1426881987, 1925078388, 2162078206, 2614888103,
   3248222580, 3835390401, 4022224774, 264347078, 604807628,
   770255983, 1249150122, 1555081692, 1996064986, 2554220882,
   2821834349, 2952996808, 3210313671, 3336571891, 3584528711,
   113926993, 338241895, 666307205, 773529912, 1294757372,
   1396182291, 1695183700, 1986661051, 2177026350, 2456956037,
   2730485921, 2820302411, 3259730800, 3345764771, 3516065817,
   3600352804, 4094571909, 275423344, 430227734, 506948616,
   659060556, 883997877, 958139571, 1322822218, 1537002063,
   1747873779, 1955562222, 2024104815, 2227730452, 2361852424,
   2428436474, 2756734187, 3204031479, 3329325298]

structure Sha256State where
  a : Nat
  b : Nat
  c : Nat
  d : Nat
  e : Nat
  f : Nat
  g : Nat
  h : Nat

def sha256H0 : Sha256State :=
  ⟨1779033703, 3144134277, 1013904242, 2773480762,
   1359893119, 2600822924, 528734635, 1541459225⟩

def bigSigma0 (x : Nat) : Nat := rotr32 x 2 ^^^ rotr32 x 13 ^^^ rotr32 x 22

def bigSigma1 (x : Nat) : Nat := rotr32 x 6 ^^^ rotr32 x 11 ^^^ rotr32 x 25

def smallSigma0 (x : Nat) : Nat := rotr32 x 7 ^^^ rotr32 x 18 ^^^ (x >>> 3)

def smallSigma1 (x : Nat) : Nat := rotr32 x 17 ^^^ rotr32 x 19 ^^^ (x >>> 10)

def chFn (x y z : Nat) : Nat := (x &&& y) ^^^ (not32 x &&& z)

def majFn (x y z : Nat) : Nat := (x &&& y) ^^^ (x &&& z) ^^^ (y &&& z)

/-- One message-schedule extension step; `acc` holds the schedule so far in
reverse order, so index 0 is W[t-1], index 1 is W[t-2], and so on. -/
def scheduleStep (acc : List Nat) : List Nat :=
  (add32 (add32 (smallSigma1 (acc.getD 1 0)) (acc.getD 6 0))
         (add32 (smallSigma0 (acc.getD 14 0)) (acc.getD 15 0))) :: acc

def scheduleExtend : Nat → List Nat → List Nat
  | 0, acc => acc
  | n + 1, acc => scheduleExtend n (scheduleStep acc)

/-- Extend a 16-word block to the 64-word message schedule. -/
def sha256Schedule (w16 : List Nat) : List Nat :=
  (scheduleExtend 48 w16.reverse).reverse

def compressStep (st : Sha256State) (kw : Nat × Nat) : Sha256State :=
  let t1 := add32 st.h (add32 (bigSigma1 st.e) (add32 (chFn st.e st.f st.g) (add32 kw.1 kw.2)))
  let t2 := add32 (bigSigma0 st.a) (majFn st.a st.b st.c)
  ⟨add32 t1 t2, st.a, st.b, st.c, add32 st.d t1, st.e, st.f, st.g⟩

def sha256Compress (H : Sha256State) (block16 : List Nat) : Sha256State :=
  let st := (sha256K.zip (sha256Schedule block16)).foldl compressStep H
  ⟨add32 H.a st.a, add32 H.b st.b, add32 H.c st.c, add32 H.d st.d,
   add32 H.e st.e, add32 H.f st.f, add32 H.g st.g, add32 H.h st.h⟩

/-- Big-endian bytes of a 32-bit word. -/
def be32 (x : Nat) : List Nat :=
  [(x >>> 24) &&& 0xFF, (x >>> 16) &&& 0xFF, (x >>> 8) &&& 0xFF, x &&& 0xFF]

/-- Big-endian bytes of a 64-bit word. -/
def be64 (x : Nat) : List Nat :=
  [(x >>> 56) &&& 0xFF, (x >>> 48) &&& 0xFF, (x >>> 40) &&& 0xFF, (x >>> 32) &&& 0xFF,
   (x >>> 24) &&& 0xFF, (x >>> 16) &&& 0xFF, (x >>> 8) &&& 0xFF, x &&& 0xFF]

/-- Group bytes into big-endian 32-bit words (input length a multiple of 4). -/
def toWords32 : List Nat → List Nat
  | b0 :: b1 :: b2 :: b3 :: rest =>
    ((b0 <<< 24) ||| (b1 <<< 16) ||| (b2 <<< 8) ||| b3) :: toWords32 rest
  | _ => []

/-- FIPS 180-4 padding: append 0x80, zeros to 56 mod 64, then the 64-bit
big-endian bit length. -/
def sha256Pad (msg : List Nat) : List Nat :=
  msg ++ 0x80 :: List.replicate ((120 - ((msg.length + 1) % 64)) % 64) 0 ++ be64 (msg.length * 8)

/-- Process the padded message 16 words at a time; `fuel` is the block count. -/
def sha256Loop : Nat → Sha256State → List Nat → Sha256State
  | 0, H, _ => H
  | n + 1, H, ws => sha256Loop n (sha256Compress H (ws.take 16)) (ws.drop 16)

/-- SHA-256 digest (32 bytes) of a byte sequence. -/
def sha256Bytes (msg : List Nat) : List Nat :=
  let ws := toWords32 (sha256Pad msg)
  let H := sha256Loop (ws.length / 16) sha256H0 ws
  be32 H.a ++ be32 H.b ++ be32 H.c ++ be32 H.d ++ be32 H.e ++ be32 H.f ++ be32 H.g ++ be32 H.h

/-! ## UTF-8 and standard base64 (Go `[]byte(s)` and `encoding/base64`) -/

def utf8EncodeCharBytes (c : Char) : List Nat :=
  let n := c.toNat
  if n < 0x80 then [n]
  else if n < 0x800 then
    [0xC0 ||| (n >>> 6), 0x80 ||| (n &&& 0x3F)]
  else if n < 0x10000 then
    [0xE0 ||| (n >>> 12), 0x80 ||| ((n >>> 6) &&& 0x3F), 0x80 ||| (n &&& 0x3F)]
  else
    [0xF0 ||| (n >>> 18), 0x80 ||| ((n >>> 12) &&& 0x3F),
     0x80 ||| ((n >>> 6) &&& 0x3F), 0x80 ||| (n &&& 0x3F)]

/-- The bytes of the UTF-8 encoding of a string (Go `[]byte(s)`). -/
def utf8Bytes (s : String) : List Nat :=
  s.data.foldr (fun c acc => utf8EncodeCharBytes c ++ acc) []

def base64Alphabet : List Char :=
  "ABCDEFGHIJKLMNOPQRSTUVWXYZabcdefghijklmnopqrstuvwxyz0123456789+/".data

def base64Digit (n : Nat) : Char := base64Alphabet.getD n '='

/-- Standard base64 encoding with padding (`base64.StdEncoding.EncodeToString`). -/
def base64EncodeBytes : List Nat → List Char
  | [] => []
  | [b1] =>
    [base64Digit (b1 >>> 2), base64Digit ((b1 &&& 0x3) <<< 4), '=', '=']
  | [b1, b2] =>
    [base64Digit (b1 >>> 2), base64Digit (((b1 &&& 0x3) <<< 4) ||| (b2 >>> 4)),
     base64Digit ((b2 &&& 0xF) <<< 2), '=']
  | b1 :: b2 :: b3 :: rest =>
    base64Digit (b1 >>> 2) :: base64Digit (((b1 &&& 0x3) <<< 4) ||| (b2 >>> 4)) ::
    base64Digit (((b2 &&& 0xF) <<< 2) ||| (b3 >>> 6)) :: base64Digit (b3 &&& 0x3F) ::
    base64EncodeBytes rest

def base64OfBytes (bs : List Nat) : String := String.mk (base64EncodeBytes bs)

/-! ## `GenerateClientToken` (ecs.go) -/

/-- `GenerateClientToken` from ecs.go: SHA-256 the input, base64-encode the
digest, truncate to at most 64 characters. -/
def GenerateClientToken (input : String) : String :=
  let encoded := base64OfBytes (sha256Bytes (utf8Bytes input))
  if encoded.length > 64 then String.mk (encoded.data.take 64) else encoded

/-! ## Data model (ado.go, ecs.go structs) -/

/-- `ECSTaskConfig` from ado.go. -/
structure ECSTaskConfig where
  Cluster : String
  TaskDefinition : String
  ClientToken : String
  Subnets : List String
  SecurityGroups : List String
deriving DecidableEq

/-- The Go zero value produced by `new(ECSTaskConfig)`. -/
def ECSTaskConfig.zero : ECSTaskConfig := ⟨"", "", "", [], []⟩

/-- `ECSTaskReadConfig` from ado.go. -/
structure ECSTaskReadConfig where
  Cluster : String
  TaskARN : String
deriving DecidableEq

/-- `ADOPayload` from ado.go (decoded inbound JSON). -/
structure ADOPayload where
  PlanURL : String
  PlanID : String
  ProjectID : String
  HubName : String
  JobID : String
  TimelineID : String
  TaskInstanceID : String
  AuthToken : String
deriving DecidableEq

/-- `ADOConfig` from ado.go. -/
structure ADOConfig where
  Instance : String
  APIVersion : String
  AuthUsername : String
deriving DecidableEq

/-- The Go zero value produced by `new(ADOConfig)`. -/
def ADOConfig.zero : ADOConfig := ⟨"", "", ""⟩

/-- `ADOCallbackConfig` from ado.go. -/
structure ADOCallbackConfig where
  Config : ADOConfig
  Payload : ADOPayload
  Result : String
deriving DecidableEq

/-- `types.Task` (AWS SDK): only the fields the program reads.  Pointer-typed
SDK fields are `Option`. -/
structure ECSTask where
  TaskArn : Option String
  LastStatus : Option String
deriving DecidableEq

/-- `ecs.RunTaskOutput` (AWS SDK): only the field the program reads. -/
structure RunTaskOutput where
  Tasks : List ECSTask
deriving DecidableEq

/-- `ecs.DescribeTasksOutput` (AWS SDK): only the field the program reads. -/
structure DescribeTasksOutput where
  Tasks : List ECSTask
deriving DecidableEq

/-- `aws.ToString`: dereference an SDK string pointer, "" when nil. -/
def awsToString : Option String → String
  | some s => s
  | none => ""

/-! ## Environment-variable configuration (ecs.go helpers, ado.go ReadFromEnv)

The process environment is an oracle `String → String`; Go's `os.Getenv`
returns "" for unset variables.  `ReadRequiredEnvVar` calls `os.Exit(1)` on an
empty value, modelled as `none`. -/

/-- Go `strings.Split` for a one-character separator, on the character list. -/
def splitOnCharAux (sep : Char) : List Char → List Char → List String
  | [], acc => [String.mk acc.reverse]
  | c :: rest, acc =>
    if c = sep then String.mk acc.reverse :: splitOnCharAux sep rest []
    else splitOnCharAux sep rest (c :: acc)

/-- Go `strings.Split(s, ",")`. -/
def stringsSplitComma (s : String) : List String := splitOnCharAux ',' s.data []

def ReadRequiredEnvVar (env : String → String) (name : String) : Option String :=
  if env name = "" then none else some (env name)

def ReadEnvVarWithDefault (env : String → String) (name defaultVal : String) : String :=
  if env name = "" then defaultVal else env name

/-- `ECSTaskConfig.ReadFromEnv` from ado.go: populates the four
environment-derived fields of the receiver; `none` models `os.Exit(1)` on a
missing required variable. -/
def ECSTaskConfig.ReadFromEnv (config : ECSTaskConfig) (env : String → String) :
    Option ECSTaskConfig := do
  let cluster ← ReadRequiredEnvVar env "ECS_CLUSTER"
  let taskDefinition ← ReadRequiredEnvVar env "ECS_TASK_DEFINITION"
  let subnetIDsStr ← ReadRequiredEnvVar env "SUBNET_IDS"
  let securityGroupIDsStr ← ReadRequiredEnvVar env "SECURITY_GROUP_IDS"
  some { config with
           Cluster := cluster
           TaskDefinition := taskDefinition
           Subnets := stringsSplitComma subnetIDsStr
           SecurityGroups := stringsSplitComma securityGroupIDsStr }

/-- `ADOConfig.ReadFromEnv` from ado.go. -/
def ADOConfig.ReadFromEnv (config : ADOConfig) (env : String → String) :
    Option ADOConfig := do
  let adoDomain := ReadEnvVarWithDefault env "ADO_DOMAIN" "dev.azure.com"
  let adoOrg ← ReadRequiredEnvVar env "ADO_ORG"
  some { config with
           Instance := adoDomain ++ "/" ++ adoOrg
           APIVersion := ReadEnvVarWithDefault env "ADO_API_VERSION" "7.1-preview.3"
           AuthUsername := ReadEnvVarWithDefault env "ADO_AUTH_USERNAME" "ado-callback" }

/-- `SetClientToken` from ado.go. -/
def ECSTaskConfig.SetClientToken (config : ECSTaskConfig) (input : String) : ECSTaskConfig :=
  { config with ClientToken := GenerateClientToken input }

/-! ## Process initialization (main.go `init`)

The source runs, in order:
```
taskCfg = new(ECSTaskConfig)
taskCfg.ReadFromEnv()
adoCfg.ReadFromEnv()        // adoCfg is still the nil pointer here
adoCfg = new(ADOConfig)
```
`adoCfg.ReadFromEnv()` is invoked on the nil `*ADOConfig`: the method body
first reads ADO_DOMAIN (defaulted) and ADO_ORG (required, exits when empty)
and then assigns `config.Instance`, writing through the nil receiver, which
panics.  The allocation `adoCfg = new(ADOConfig)` only happens afterwards. -/

inductive InitResult where
  | ok (taskCfg : ECSTaskConfig) (adoCfg : ADOConfig)
  | exitFailure
  | nilPanic
deriving DecidableEq

/-- `true` exactly when `init` completed and handlers would run. -/
def InitResult.reachedHandler : InitResult → Bool
  | .ok _ _ => true
  | _ => false

/-- The `init` function of main.go, statement by statement. -/
def goInit (env : String → String) : InitResult :=
  match ECSTaskConfig.zero.ReadFromEnv env with
  | none => .exitFailure
  | some _taskCfg =>
    if env "ADO_ORG" = "" then .exitFailure
    else .nilPanic

/-- The initialization the spec describes ("populated during process
initialization from environment"), i.e. main.go's `init` with the allocation
of `adoCfg` placed before the `ReadFromEnv` call, mirroring how `taskCfg` is
handled. -/
def specIntendedInit (env : String → String) : Option (ECSTaskConfig × ADOConfig) := do
  let taskCfg ← ECSTaskConfig.zero.ReadFromEnv env
  let adoCfg ← ADOConfig.zero.ReadFromEnv env
  some (taskCfg, adoCfg)

/-! ## Azure DevOps callback (ado.go, ecs.go `ADOCallback`) -/

/-- `ADOPayload.ADOEventsURL` from ado.go (`inst` is the Go parameter
`instance`, a Lean keyword). -/
def ADOPayload.ADOEventsURL (payload : ADOPayload) (inst : String) (apiVersion : String) : String :=
  "https://" ++ inst ++ "/" ++ payload.ProjectID ++ "/_apis/distributedtask/hubs/" ++
    payload.HubName ++ "/plans/" ++ payload.PlanID ++ "/events?api-version=" ++ apiVersion

/-- `ADOConfig.GetAuth`: base64 of "AuthUsername:token".  In ado.go this
helper exists only as a commented-out block, yet `ADOCallback` in ecs.go still
invokes it (so the repository does not compile as committed); the commented
body is the only definition the source gives for that call. -/
def ADOConfig.GetAuth (config : ADOConfig) (token : String) : String :=
  base64OfBytes (utf8Bytes (config.AuthUsername ++ ":" ++ token))

/-- An `*http.Response` as the program reads it: the status code and the
outcome of `io.ReadAll(res.Body)`. -/
structure HttpResponse where
  StatusCode : Int
  BodyRead : Except String String

/-- `readResponse` from ecs.go. -/
def readResponse (res : HttpResponse) : Except String String :=
  if res.StatusCode < 200 || res.StatusCode > 399 then
    Except.error ("unexpected status code: " ++ toString res.StatusCode)
  else
    match res.BodyRead with
    | Except.error e => Except.error ("failed to read response body: " ++ e)
    | Except.ok data => Except.ok data

/-- The HTTP POST request that `ADOCallback` builds and hands to
`client.Do`. -/
structure SentRequest where
  Method : String
  URL : String
  AcceptHeader : String
  AuthorizationHeader : String
  Body : String
deriving DecidableEq

/-- Oracle for the standard-library effects inside one `ADOCallback` call:
the `json.Marshal` outcome, the `http.NewRequest` outcome and the
`client.Do` outcome (as a function of the request actually sent). -/
structure HttpExchange where
  marshalBody : Except String String
  newRequest : Except String Unit
  doRequest : SentRequest → Except String HttpResponse

/-- `ADOCallback` from ecs.go.  Returns the request that reached `client.Do`
(`none` when failure struck before that) together with the `(data, err)`
result. -/
def ADOCallback (ex : HttpExchange) (config : ADOCallbackConfig) :
    Option SentRequest × Except String String :=
  let token := config.Config.GetAuth config.Payload.AuthToken
  match ex.marshalBody with
  | Except.error e => (none, Except.error ("failed to marshal JSON body: " ++ e))
  | Except.ok bodyBytes =>
    let url := config.Payload.ADOEventsURL config.Config.Instance config.Config.APIVersion
    match ex.newRequest with
    | Except.error e => (none, Except.error ("failed to create HTTP request: " ++ e))
    | Except.ok _ =>
      let req : SentRequest := ⟨"POST", url, "application/json", "Bearer " ++ token, bodyBytes⟩
      match ex.doRequest req with
      | Except.error e => (some req, Except.error ("failed to execute HTTP request: " ++ e))
      | Except.ok res =>
        match readResponse res with
        | Except.error e => (some req, Except.error e)
        | Except.ok data => (some req, Except.ok data)

/-- The request `ADOCallback` sends once marshalling and request creation
succeed, as a function of its inputs. -/
def sentRequestOf (config : ADOCallbackConfig) (bodyBytes : String) : SentRequest :=
  ⟨"POST",
   config.Payload.ADOEventsURL config.Config.Instance config.Config.APIVersion,
   "application/json",
   "Bearer " ++ config.Config.GetAuth config.Payload.AuthToken,
   bodyBytes⟩

/-! ## ECS calls (ecs.go) -/

/-- `GetTaskLastStatus` from ecs.go, applied to the `DescribeTasks` outcome
the SDK returned for this call. -/
def GetTaskLastStatus (config : ECSTaskReadConfig)
    (resp : Except String DescribeTasksOutput) : Except String String :=
  match resp with
  | Except.error e => Except.error e
  | Except.ok result =>
    if h : 0 < result.Tasks.length then
      Except.ok (awsToString (result.Tasks.get ⟨0, h⟩).LastStatus)
    else
      Except.error ("failed to describe task " ++ config.TaskARN)

/-! ## The status polling loop (main.go, lines 70-89)

The loop body runs `GetTaskLastStatus`, breaks with outcome "succeeded" on
"RUNNING", breaks with the initial outcome "failed" on "STOPPED", returns the
error on a failed query, and otherwise sleeps one second and queries again.
The list argument is the (finite prefix of the) stream of successive query
results; `none` models the loop still running after the whole observed prefix
is consumed.  The `Nat` component counts the one-second sleeps taken before
termination. -/

def pollLoop : List (Except String String) → Nat → Option (Nat × Except String String)
  | [], _ => none
  | Except.error e :: _, waits => some (waits, Except.error e)
  | Except.ok taskStatus :: rest, waits =>
    if taskStatus = "RUNNING" then some (waits, Except.ok "succeeded")
    else if taskStatus = "STOPPED" then some (waits, Except.ok "failed")
    else pollLoop rest (waits + 1)

/-- The spec's transition rule for a single query result: RUNNING and STOPPED
are terminal with outcomes "succeeded" and "failed", a query error is terminal
and surfaces the error, anything else is non-terminal. -/
def specTerminal (r : Except String String) : Option (Except String String) :=
  match r with
  | Except.error e => some (Except.error e)
  | Except.ok s =>
    if s = "RUNNING" then some (Except.ok "succeeded")
    else if s = "STOPPED" then some (Except.ok "failed")
    else none

/-- The poller as the spec words it: query, stop at the first terminal
result, otherwise wait one unit and query again. -/
def specPoll : List (Except String String) → Nat → Option (Nat × Except String String)
  | [], _ => none
  | r :: rest, i =>
    match specTerminal r with
    | some o => some (i, o)
    | none => specPoll rest (i + 1)

/-! ## The Lambda handler (main.go) -/

/-- One `events.SQSMessage`: the only field the handler reads. -/
structure SQSRecord where
  Body : String
deriving DecidableEq

/-- Oracle for everything outside the handler's own code: `json.Unmarshal`
of a message body, the ECS `RunTask` call, the stream of successive
`DescribeTasks` results for a task, and the standard-library effects inside
each `ADOCallback`. -/
structure World where
  decode : String → Except String ADOPayload
  runTask : ECSTaskConfig → Except String RunTaskOutput
  describeResults : ECSTaskReadConfig → List (Except String DescribeTasksOutput)
  httpExchange : ADOCallbackConfig → HttpExchange

/-- `RunFargateTask` from ecs.go: builds the `RunTaskInput` from the config
and forwards it to the SDK, whose behaviour the world oracle supplies. -/
def RunFargateTask (w : World) (config : ECSTaskConfig) : Except String RunTaskOutput :=
  w.runTask config

/-- The backend-visible side effects of the handler, per records processed. -/
inductive BackendCall where
  | launch (config : ECSTaskConfig)
  | callback (config : ADOCallbackConfig)
deriving DecidableEq

/-- How one handler invocation ends: a nil return, an error return, a panic
from `result.Tasks[0]` on an empty task list, or the polling loop never
observing a terminal status within the supplied stream. -/
inductive HandlerOutcome where
  | ok
  | fail (e : String)
  | panic
  | diverge
deriving DecidableEq

/-- The body of the `for _, record := range event.Records` loop in main.go,
for a single record: decode, set the client token on the process-wide
`taskCfg`, launch, poll, callback.  Returns the backend calls made, the
updated `taskCfg`, and how the iteration ended. -/
def processRecord (w : World) (adoCfg : ADOConfig) (taskCfg : ECSTaskConfig)
    (record : SQSRecord) : List BackendCall × ECSTaskConfig × HandlerOutcome :=
  match w.decode record.Body with
  | Except.error e => ([], taskCfg, HandlerOutcome.fail e)
  | Except.ok payload =>
    let taskCfg1 := taskCfg.SetClientToken payload.AuthToken
    match RunFargateTask w taskCfg1 with
    | Except.error e => ([BackendCall.launch taskCfg1], taskCfg1, HandlerOutcome.fail e)
    | Except.ok result =>
      match result.Tasks with
      | [] => ([BackendCall.launch taskCfg1], taskCfg1, HandlerOutcome.panic)
      | t :: _ =>
        let taskARN := awsToString t.TaskArn
        let readCfg : ECSTaskReadConfig := ⟨taskCfg1.Cluster, taskARN⟩
        match pollLoop ((w.describeResults readCfg).map (GetTaskLastStatus readCfg)) 0 with
        | none => ([BackendCall.launch taskCfg1], taskCfg1, HandlerOutcome.diverge)
        | some (_, Except.error e) =>
          ([BackendCall.launch taskCfg1], taskCfg1, HandlerOutcome.fail e)
        | some (_, Except.ok runTaskOutcome) =>
          let cbCfg : ADOCallbackConfig := ⟨adoCfg, payload, runTaskOutcome⟩
          match (ADOCallback (w.httpExchange cbCfg) cbCfg).2 with
          | Except.error e =>
            ([BackendCall.launch taskCfg1, BackendCall.callback cbCfg], taskCfg1,
             HandlerOutcome.fail e)
          | Except.ok _ =>
            ([BackendCall.launch taskCfg1, BackendCall.callback cbCfg], taskCfg1,
             HandlerOutcome.ok)

/-- `handler` from main.go: the records loop, threading the process-wide
`taskCfg` (whose `ClientToken` each iteration overwrites) and stopping at the
first record whose processing does not reach the end of the loop body. -/
def handler (w : World) (adoCfg : ADOConfig) :
    ECSTaskConfig → List SQSRecord → List BackendCall × ECSTaskConfig × HandlerOutcome
  | taskCfg, [] => ([], taskCfg, HandlerOutcome.ok)
  | taskCfg, record :: rest =>
    match processRecord w adoCfg taskCfg record with
    | (calls, taskCfg1, HandlerOutcome.ok) =>
      let next := handler w adoCfg taskCfg1 rest
      (calls ++ next.1, next.2.1, next.2.2)
    | (calls, taskCfg1, outcome) => (calls, taskCfg1, outcome)

/-- Equality of every `ECSTaskConfig` field except `ClientToken`. -/
def agreesExceptClientToken (x y : ECSTaskConfig) : Prop :=
  x.Cluster = y.Cluster ∧ x.TaskDefinition = y.TaskDefinition ∧
  x.Subnets = y.Subnets ∧ x.SecurityGroups = y.SecurityGroups

/-! ## Concrete fixtures used by witnesses and counterexamples -/

def payloadEx : ADOPayload :=
  ⟨"https://dev.azure.com/myorg", "plan1", "proj1", "build", "job1", "tl1", "ti1", "token123"⟩

def adoEx : ADOConfig := ⟨"dev.azure.com/myorg", "7.1-preview.3", "ado-callback"⟩

def tcEx : ECSTaskConfig := ⟨"cluster1", "taskdef1", "", ["s1"], ["g1"]⟩

def cbCfgEx : ADOCallbackConfig := ⟨adoEx, payloadEx, "succeeded"⟩

def resOkEx : HttpResponse := ⟨200, Except.ok "response-body"⟩

/-- Exchange whose standard-library effects all succeed, with a 200 reply. -/
def exOkEx : HttpExchange := ⟨Except.ok "{}", Except.ok (), fun _ => Except.ok resOkEx⟩

/-- Environment with every variable the program reads set. -/
def envEx : String → String := fun name =>
  if name = "ECS_CLUSTER" then "cluster1"
  else if name = "ECS_TASK_DEFINITION" then "taskdef1"
  else if name = "SUBNET_IDS" then "s1,s2"
  else if name = "SECURITY_GROUP_IDS" then "g1"
  else if name = "ADO_ORG" then "myorg"
  else ""

/-- World whose first decode fails. -/
def wDecodeFail : World :=
  ⟨fun _ => Except.error "invalid json", fun _ => Except.error "unreached",
   fun _ => [], fun _ => exOkEx⟩

/-- World where decoding succeeds and the launch call fails. -/
def wRunFail : World :=
  ⟨fun _ => Except.ok payloadEx, fun _ => Except.error "boom",
   fun _ => [], fun _ => exOkEx⟩

/-- World where the launch call succeeds with an empty task list. -/
def wEmptyTasks : World :=
  ⟨fun _ => Except.ok payloadEx, fun _ => Except.ok ⟨[]⟩,
   fun _ => [], fun _ => exOkEx⟩

/-! # Theorems -/

/-! ## Helper lemmas: token generation -/

theorem base64EncodeBytes_length : ∀ bs : List Nat,
    (base64EncodeBytes bs).length = 4 * ((bs.length + 2) / 3)
  | [] => by simp [base64EncodeBytes]
  | [b1] => by simp [base64EncodeBytes]
  | [b1, b2] => by simp [base64EncodeBytes]
  | b1 :: b2 :: b3 :: rest => by
    have ih := base64EncodeBytes_length rest
    simp only [base64EncodeBytes, List.length_cons, ih]
    omega

theorem sha256Bytes_length (msg : List Nat) : (sha256Bytes msg).length = 32 := by
  simp [sha256Bytes, be32]

theorem encoded_digest_length (s : String) :
    (base64OfBytes (sha256Bytes (utf8Bytes s))).length = 44 := by
  show (base64EncodeBytes (sha256Bytes (utf8Bytes s))).length = 44
  rw [base64EncodeBytes_length, sha256Bytes_length]

theorem generateClientToken_untruncated (s : String) :
    GenerateClientToken s = base64OfBytes (sha256Bytes (utf8Bytes s)) := by
  unfold GenerateClientToken
  rw [if_neg]
  rw [encoded_digest_length]
  omega

/-- C5: for every input string, including the empty string,
`GenerateClientToken` succeeds (it is a total function) and returns a string
of length at most 64 characters, equal to the standard base64 encoding of the
SHA-256 digest of the input truncated to at most 64 characters. -/
theorem generateClientToken_spec (s : String) :
    (GenerateClientToken s).length ≤ 64 ∧
    GenerateClientToken s =
      String.mk ((base64EncodeBytes (sha256Bytes (utf8Bytes s))).take 64) := by
  have hlen : (base64EncodeBytes (sha256Bytes (utf8Bytes s))).length = 44 :=
    encoded_digest_length s
  constructor
  · rw [generateClientToken_untruncated]
    show (base64EncodeBytes (sha256Bytes (utf8Bytes s))).length ≤ 64
    omega
  · rw [generateClientToken_untruncated]
    show String.mk (base64EncodeBytes (sha256Bytes (utf8Bytes s))) = _
    rw [List.take_of_length_le (by omega)]

/-- C10: for every input string, `GenerateClientToken` returns exactly 44
characters (the base64 encoding of the 32-byte SHA-256 digest), hence is never
empty, and the truncation branch is unreachable: the result is the whole
un-truncated encoding. -/
theorem generateClientToken_always_44 (s : String) :
    (GenerateClientToken s).length = 44 ∧
    (GenerateClientToken s == "") = false ∧
    GenerateClientToken s = base64OfBytes (sha256Bytes (utf8Bytes s)) := by
  have huntrunc := generateClientToken_untruncated s
  have hlen : (GenerateClientToken s).length = 44 := by
    rw [huntrunc, encoded_digest_length]
  refine ⟨hlen, ?_, huntrunc⟩
  rw [beq_eq_false_iff_ne]
  intro h
  rw [h] at hlen
  simp at hlen

/-- Sanity check of the embedded digest pipeline against the published
SHA-256 test vector for the empty message. -/
theorem generateClientToken_empty_vector :
    GenerateClientToken "" = "47DEQpj8HBSa+/TImW+5JCeuQeRkm5NMpJWZG3hSuFU=" := by decide

/-- Sanity check of the embedded digest pipeline against the published
SHA-256 test vector for "abc". -/
theorem sha256_abc_vector :
    base64OfBytes (sha256Bytes (utf8Bytes "abc")) =
      "ungWv48Bz+pBQUDeXa4iI7ADYaOWF3qctBD/YfIAFa0=" := by decide

/-! ## Helper lemmas: the polling loop -/

theorem pollLoop_eq_specPoll : ∀ (xs : List (Except String String)) (w : Nat),
    pollLoop xs w = specPoll xs w
  | [], _ => rfl
  | Except.error e :: rest, w => by simp [pollLoop, specPoll, specTerminal]
  | Except.ok s :: rest, w => by
    by_cases hR : s = "RUNNING"
    · simp [pollLoop, specPoll, specTerminal, hR]
    · by_cases hS : s = "STOPPED"
      · simp [pollLoop, specPoll, specTerminal, hR, hS]
      · simp only [pollLoop, specPoll, specTerminal, if_neg hR, if_neg hS]
        exact pollLoop_eq_specPoll rest (w + 1)

theorem pollLoop_none_iff : ∀ (xs : List (Except String String)) (w : Nat),
    (pollLoop xs w = none ↔ ∀ r ∈ xs, specTerminal r = none)
  | [], _ => by simp [pollLoop]
  | Except.error e :: rest, w => by simp [pollLoop, specTerminal]
  | Except.ok s :: rest, w => by
    by_cases hR : s = "RUNNING"
    · simp [pollLoop, specTerminal, hR]
    · by_cases hS : s = "STOPPED"
      · simp [pollLoop, specTerminal, hR, hS]
      · simp only [pollLoop, if_neg hR, if_neg hS, List.mem_cons]
        rw [pollLoop_none_iff rest (w + 1)]
        constructor
        · intro h r hr
          rcases hr with hr | hr
          · rw [hr]; simp [specTerminal, hR, hS]
          · exact h r hr
        · intro h r hr
          exact h r (Or.inr hr)

theorem pollLoop_some_spec : ∀ (xs : List (Except String String)) (w i : Nat)
    (o : Except String String), pollLoop xs w = some (i, o) →
    w ≤ i ∧ (∀ r ∈ xs.take (i - w), specTerminal r = none) ∧
    ∃ h : i - w < xs.length, specTerminal (xs.get ⟨i - w, h⟩) = some o
  | [], w, i, o => by simp [pollLoop]
  | Except.error e :: rest, w, i, o => by
    intro h
    simp only [pollLoop, Option.some.injEq, Prod.mk.injEq] at h
    obtain ⟨hi, ho⟩ := h
    subst hi
    subst ho
    refine ⟨le_refl w, ?_, ?_⟩
    · simp
    · refine ⟨by simp, ?_⟩
      simp [specTerminal]
  | Except.ok s :: rest, w, i, o => by
    intro h
    by_cases hR : s = "RUNNING"
    · simp only [pollLoop, if_pos hR, Option.some.injEq, Prod.mk.injEq] at h
      obtain ⟨hi, ho⟩ := h
      subst hi
      subst ho
      refine ⟨le_refl w, by simp, ⟨by simp, ?_⟩⟩
      simp [specTerminal, hR]
    · by_cases hS : s = "STOPPED"
      · simp only [pollLoop, if_neg hR, if_pos hS, Option.some.injEq, Prod.mk.injEq] at h
        obtain ⟨hi, ho⟩ := h
        subst hi
        subst ho
        refine ⟨le_refl w, by simp, ⟨by simp, ?_⟩⟩
        simp [specTerminal, hR, hS]
      · simp only [pollLoop, if_neg hR, if_neg hS] at h
        obtain ⟨hw, htake, hlt, hget⟩ := pollLoop_some_spec rest (w + 1) i o h
        have hk : i - w = (i - (w + 1)) + 1 := by omega
        refine ⟨by omega, ?_, ?_⟩
        · rw [hk, List.take_succ_cons]
          intro r hr
          rcases List.mem_cons.mp hr with hr | hr
          · rw [hr]; simp [specTerminal, hR, hS]
          · exact htake r hr
        · rw [hk]
          refine ⟨by simp; omega, ?_⟩
          exact hget

/-- C4: the polling loop of main.go agrees with the spec's transition system
(`specPoll` / `specTerminal`: first RUNNING gives "succeeded", first STOPPED
gives "failed", a query error is terminal and surfaced, everything else polls
again after one unit wait); it runs forever exactly when no queried status is
terminal; and when it terminates with result `o` after `i` waits, the first
`i` results were all non-terminal and the result at position `i` is terminal
with outcome `o`. -/
theorem pollLoop_first_terminal (xs : List (Except String String)) :
    (∀ w, pollLoop xs w = specPoll xs w) ∧
    (pollLoop xs 0 = none ↔ ∀ r ∈ xs, specTerminal r = none) ∧
    (∀ i o, pollLoop xs 0 = some (i, o) →
      (∀ r ∈ xs.take i, specTerminal r = none) ∧
      ∃ h : i < xs.length, specTerminal (xs.get ⟨i, h⟩) = some o) := by
  refine ⟨fun w => pollLoop_eq_specPoll xs w, pollLoop_none_iff xs 0, ?_⟩
  intro i o h
  have hs := pollLoop_some_spec xs 0 i o h
  rw [Nat.sub_zero] at hs
  exact ⟨hs.2.1, hs.2.2⟩

/-- Witness for C4 at a concrete status stream: two "PENDING" polls then
"RUNNING" terminate after two waits with outcome "succeeded". -/
theorem pollLoop_first_terminal_witness :
    pollLoop [Except.ok "PENDING", Except.ok "PENDING", Except.ok "RUNNING"] 0 =
      specPoll [Except.ok "PENDING", Except.ok "PENDING", Except.ok "RUNNING"] 0 ∧
    pollLoop [Except.ok "PENDING", Except.ok "PENDING", Except.ok "RUNNING"] 0 =
      some (2, Except.ok "succeeded") :=
  ⟨(pollLoop_first_terminal [Except.ok "PENDING", Except.ok "PENDING",
      Except.ok "RUNNING"]).1 0, rfl⟩

/-! ## C6: GetTaskLastStatus -/

/-- C6: `GetTaskLastStatus` returns an error exactly when the describe call
failed or the response carries no tasks; a failed describe call surfaces its
own error, an empty task list surfaces the "failed to describe task" error,
and a response with at least one task yields that task's last-known status
(`aws.ToString` of its `LastStatus` field) with no error. -/
theorem getTaskLastStatus_spec (config : ECSTaskReadConfig)
    (resp : Except String DescribeTasksOutput) :
    ((∃ e, GetTaskLastStatus config resp = Except.error e) ↔
       (∃ e, resp = Except.error e) ∨
       (∃ result, resp = Except.ok result ∧ result.Tasks = [])) ∧
    (∀ e, resp = Except.error e → GetTaskLastStatus config resp = Except.error e) ∧
    (∀ result, resp = Except.ok result → result.Tasks = [] →
       GetTaskLastStatus config resp =
         Except.error ("failed to describe task " ++ config.TaskARN)) ∧
    (∀ result t ts, resp = Except.ok result → result.Tasks = t :: ts →
       GetTaskLastStatus config resp = Except.ok (awsToString t.LastStatus)) := by
  refine ⟨?_, ?_, ?_, ?_⟩
  · cases resp with
    | error e => simp [GetTaskLastStatus]
    | ok result =>
      rcases hT : result.Tasks with _ | ⟨t, ts⟩
      · simp [GetTaskLastStatus, hT]
      · simp [GetTaskLastStatus, hT]
  · intro e he
    subst he
    rfl
  · intro result hr ht
    subst hr
    simp [GetTaskLastStatus, ht]
  · intro result t ts hr ht
    subst hr
    simp [GetTaskLastStatus, ht]

/-- Witness for C6: a one-task response yields its status, an empty response
yields the describe error. -/
theorem getTaskLastStatus_witness :
    GetTaskLastStatus ⟨"cluster1", "arn1"⟩
        (Except.ok ⟨[⟨some "arn1", some "RUNNING"⟩]⟩) = Except.ok "RUNNING" ∧
    GetTaskLastStatus ⟨"cluster1", "arn1"⟩ (Except.ok ⟨[]⟩) =
      Except.error "failed to describe task arn1" :=
  ⟨(getTaskLastStatus_spec ⟨"cluster1", "arn1"⟩
      (Except.ok ⟨[⟨some "arn1", some "RUNNING"⟩]⟩)).2.2.2
      ⟨[⟨some "arn1", some "RUNNING"⟩]⟩ ⟨some "arn1", some "RUNNING"⟩ [] rfl rfl,
   (getTaskLastStatus_spec ⟨"cluster1", "arn1"⟩ (Except.ok ⟨[]⟩)).2.2.1 ⟨[]⟩ rfl rfl⟩

/-! ## C7: ADOCallback success/failure classification -/

/-- C7: once `json.Marshal` and `http.NewRequest` succeed and `client.Do`
returns a response whose body reads back as `data`, the callback returns
exactly that raw body as a string precisely when the HTTP status code lies in
[200, 399]; a status outside that range yields the "unexpected status code"
error; a marshal failure yields the "failed to marshal JSON body" error; a
transport failure yields the "failed to execute HTTP request" error — three
distinct errors, each surfaced to the caller. -/
theorem adoCallback_response_classification (ex : HttpExchange) (config : ADOCallbackConfig) :
    (∀ bodyBytes res data,
       ex.marshalBody = Except.ok bodyBytes → ex.newRequest = Except.ok () →
       ex.doRequest (sentRequestOf config bodyBytes) = Except.ok res →
       res.BodyRead = Except.ok data →
       ((ADOCallback ex config).2 = Except.ok data ↔
          200 ≤ res.StatusCode ∧ res.StatusCode ≤ 399)) ∧
    (∀ bodyBytes res,
       ex.marshalBody = Except.ok bodyBytes → ex.newRequest = Except.ok () →
       ex.doRequest (sentRequestOf config bodyBytes) = Except.ok res →
       (res.StatusCode < 200 ∨ 399 < res.StatusCode) →
       (ADOCallback ex config).2 =
         Except.error ("unexpected status code: " ++ toString res.StatusCode)) ∧
    (∀ e, ex.marshalBody = Except.error e →
       (ADOCallback ex config).2 = Except.error ("failed to marshal JSON body: " ++ e)) ∧
    (∀ bodyBytes e,
       ex.marshalBody = Except.ok bodyBytes → ex.newRequest = Except.ok () →
       ex.doRequest (sentRequestOf config bodyBytes) = Except.error e →
       (ADOCallback ex config).2 =
         Except.error ("failed to execute HTTP request: " ++ e)) := by
  refine ⟨?_, ?_, ?_, ?_⟩
  · intro bodyBytes res data hm hn hd hb
    simp only [sentRequestOf] at hd
    simp only [ADOCallback, hm, hn]
    rw [hd]
    simp only [readResponse, hb]
    by_cases hlo : res.StatusCode < 200
    · simp only [hlo, decide_true_eq_true]
      constructor
      · intro h
        simp at h
      · intro ⟨h1, h2⟩
        omega
    · by_cases hhi : res.StatusCode > 399
      · simp only [hhi, decide_true_eq_true]
        constructor
        · intro h
          simp at h
        · intro ⟨h1, h2⟩
          omega
      · simp only [hlo, hhi, decide_false_eq_false]
        constructor
        · intro h
          exact ⟨by omega, by omega⟩
        · intro h
          simp
  · intro bodyBytes res hm hn hd hout
    simp only [sentRequestOf] at hd
    simp only [ADOCallback, hm, hn]
    rw [hd]
    simp only [readResponse]
    rcases hout with h | h
    · simp [h]
    · simp only [h, decide_true_eq_true]
      simp
  · intro e hm
    simp [ADOCallback, hm]
  · intro bodyBytes e hm hn hd
    simp only [sentRequestOf] at hd
    simp only [ADOCallback, hm, hn]
    rw [hd]

/-- Witness for C7: with all library effects succeeding and a 200 response,
the callback returns the raw response body. -/
theorem adoCallback_response_classification_witness :
    (ADOCallback exOkEx cbCfgEx).2 = Except.ok "response-body" :=
  ((adoCallback_response_classification exOkEx cbCfgEx).1 "{}" resOkEx "response-body"
      rfl rfl rfl rfl).mpr (by decide)

/-! ## C1: the Authorization header actually constructed -/

/-- C1 is a code bug: evaluating `ADOCallback` (whose `GetAuth` call resolves
only to the commented-out base64 helper in ado.go) at a concrete request shows
the Accept header is "application/json" as claimed, but the Authorization
header carries the base64 of "ado-callback:token123" — not the raw job access
token "token123" that the spec documents as the effective contract. -/
theorem adoCallback_authorization_header_encoded :
    ((ADOCallback exOkEx cbCfgEx).1.map SentRequest.AcceptHeader =
       some "application/json") ∧
    ((ADOCallback exOkEx cbCfgEx).1.map SentRequest.AuthorizationHeader =
       some "Bearer YWRvLWNhbGxiYWNrOnRva2VuMTIz") ∧
    ("Bearer YWRvLWNhbGxiYWNrOnRva2VuMTIz" ==
       "Bearer " ++ base64OfBytes (utf8Bytes ("ado-callback:token123"))) = true ∧
    (("Bearer YWRvLWNhbGxiYWNrOnRva2VuMTIz" : String) == "Bearer token123") = false := by
  refine ⟨rfl, rfl, ?_, ?_⟩
  · decide
  · decide

/-! ## C2: process initialization -/

/-- C2 is a code bug: `init` invokes `adoCfg.ReadFromEnv()` while `adoCfg` is
still the nil pointer and allocates `adoCfg = new(ADOConfig)` only afterwards,
so for every environment startup either exits over a missing variable or
panics writing through nil — the handler is never reached with a populated ADO
configuration.  With every variable set, `init` panics, while the
initialization order the spec describes would have produced the populated
configuration shown. -/
theorem goInit_never_populates_ado_config :
    (∀ env, (goInit env).reachedHandler = false) ∧
    goInit envEx = InitResult.nilPanic ∧
    specIntendedInit envEx =
      some (⟨"cluster1", "taskdef1", "", ["s1", "s2"], ["g1"]⟩,
            ⟨"dev.azure.com/myorg", "7.1-preview.3", "ado-callback"⟩) := by
  refine ⟨?_, rfl, ?_⟩
  · intro env
    unfold goInit
    cases ECSTaskConfig.zero.ReadFromEnv env with
    | none => rfl
    | some taskCfg =>
      simp only
      split
      · rfl
      · rfl
  · rfl

/-! ## Helper lemmas: processRecord and handler -/

theorem agreesExceptClientToken_refl (x : ECSTaskConfig) : agreesExceptClientToken x x :=
  ⟨rfl, rfl, rfl, rfl⟩

theorem agreesExceptClientToken_trans {x y z : ECSTaskConfig}
    (h1 : agreesExceptClientToken x y) (h2 : agreesExceptClientToken y z) :
    agreesExceptClientToken x z :=
  ⟨h1.1.trans h2.1, h1.2.1.trans h2.2.1, h1.2.2.1.trans h2.2.2.1, h1.2.2.2.trans h2.2.2.2⟩

theorem setClientToken_agrees (config : ECSTaskConfig) (input : String) :
    agreesExceptClientToken config (config.SetClientToken input) :=
  ⟨rfl, rfl, rfl, rfl⟩

/-- The config `processRecord` threads onward is either untouched or the
result of the `SetClientToken` call on the decoded payload's token. -/
theorem processRecord_config_cases (w : World) (adoCfg : ADOConfig)
    (taskCfg : ECSTaskConfig) (record : SQSRecord) :
    (processRecord w adoCfg taskCfg record).2.1 = taskCfg ∨
    ∃ payload, w.decode record.Body = Except.ok payload ∧
      (processRecord w adoCfg taskCfg record).2.1 =
        taskCfg.SetClientToken payload.AuthToken := by
  unfold processRecord
  cases hdec : w.decode record.Body with
  | error e => exact Or.inl rfl
  | ok payload =>
    refine Or.inr ⟨payload, rfl, ?_⟩
    dsimp only
    cases RunFargateTask w (taskCfg.SetClientToken payload.AuthToken) with
    | error e => rfl
    | ok result =>
      dsimp only
      cases hT : result.Tasks with
      | nil => rfl
      | cons t ts =>
        dsimp only
        cases pollLoop (List.map (GetTaskLastStatus
            { Cluster := (taskCfg.SetClientToken payload.AuthToken).Cluster,
              TaskARN := awsToString t.TaskArn })
            (w.describeResults
            { Cluster := (taskCfg.SetClientToken payload.AuthToken).Cluster,
              TaskARN := awsToString t.TaskArn })) 0 with
        | none => rfl
        | some p =>
          rcases p with ⟨waits, o⟩
          cases o with
          | error e => rfl
          | ok outcome =>
            dsimp only
            cases (ADOCallback
                (w.httpExchange { Config := adoCfg, Payload := payload, Result := outcome })
                { Config := adoCfg, Payload := payload, Result := outcome }).2 with
            | error e => rfl
            | ok data => rfl

theorem processRecord_agrees (w : World) (adoCfg : ADOConfig)
    (taskCfg : ECSTaskConfig) (record : SQSRecord) :
    agreesExceptClientToken taskCfg (processRecord w adoCfg taskCfg record).2.1 := by
  rcases processRecord_config_cases w adoCfg taskCfg record with h | ⟨payload, _, h⟩
  · rw [h]
    exact agreesExceptClientToken_refl taskCfg
  · rw [h]
    exact setClientToken_agrees taskCfg payload.AuthToken

theorem handler_agrees (w : World) (adoCfg : ADOConfig) :
    ∀ (records : List SQSRecord) (taskCfg : ECSTaskConfig),
    agreesExceptClientToken taskCfg (handler w adoCfg taskCfg records).2.1 := by
  intro records
  induction records with
  | nil => intro taskCfg; exact agreesExceptClientToken_refl taskCfg
  | cons record rest ih =>
    intro taskCfg
    have h1 := processRecord_agrees w adoCfg taskCfg record
    unfold handler
    rcases hp : processRecord w adoCfg taskCfg record with ⟨calls, taskCfg1, out⟩
    rw [hp] at h1
    cases out with
    | ok =>
      simp only
      exact agreesExceptClientToken_trans h1 (ih taskCfg1)
    | fail e => exact h1
    | panic => exact h1
    | diverge => exact h1

/-! ## C3: writes to the static configuration during handling -/

/-- Counterexample to C3 as stated: handling one message changes a field of
the process-wide ECS task configuration — `handler` overwrites
`taskCfg.ClientToken` (here from "" to the 44-character token derived from the
message's AuthToken), so not every field is unchanged. -/
theorem handler_overwrites_client_token :
    (((handler wRunFail adoEx tcEx [⟨"msg"⟩]).2.1).ClientToken == tcEx.ClientToken)
      = false := by decide

/-- C3 amended: the ECS task configuration's `ClientToken` is the one field
message handling writes — `SetClientToken` overwrites it with the token
generated from the input — while every other field of the process-wide ECS
task configuration survives any batch unchanged (the ADO configuration is
passed read-only throughout). -/
theorem handler_preserves_fields_except_client_token (w : World) (adoCfg : ADOConfig)
    (taskCfg : ECSTaskConfig) (records : List SQSRecord) (input : String) :
    agreesExceptClientToken taskCfg (handler w adoCfg taskCfg records).2.1 ∧
    (taskCfg.SetClientToken input).ClientToken = GenerateClientToken input ∧
    agreesExceptClientToken taskCfg (taskCfg.SetClientToken input) :=
  ⟨handler_agrees w adoCfg records taskCfg, rfl, setClientToken_agrees taskCfg input⟩

/-- The backend calls one record contributes: nothing when decoding failed,
otherwise the launch with the freshly tokened config, possibly followed by
the callback for the decoded payload. -/
theorem processRecord_trace_cases (w : World) (adoCfg : ADOConfig)
    (taskCfg : ECSTaskConfig) (record : SQSRecord) :
    (processRecord w adoCfg taskCfg record).1 = [] ∨
    ∃ payload, w.decode record.Body = Except.ok payload ∧
      ((processRecord w adoCfg taskCfg record).1 =
         [BackendCall.launch (taskCfg.SetClientToken payload.AuthToken)] ∨
       ∃ outcome, (processRecord w adoCfg taskCfg record).1 =
         [BackendCall.launch (taskCfg.SetClientToken payload.AuthToken),
          BackendCall.callback ⟨adoCfg, payload, outcome⟩]) := by
  unfold processRecord
  cases hdec : w.decode record.Body with
  | error e => exact Or.inl rfl
  | ok payload =>
    refine Or.inr ⟨payload, rfl, ?_⟩
    dsimp only
    cases RunFargateTask w (taskCfg.SetClientToken payload.AuthToken) with
    | error e => exact Or.inl rfl
    | ok result =>
      dsimp only
      cases hT : result.Tasks with
      | nil => exact Or.inl rfl
      | cons t ts =>
        dsimp only
        cases pollLoop (List.map (GetTaskLastStatus
            { Cluster := (taskCfg.SetClientToken payload.AuthToken).Cluster,
              TaskARN := awsToString t.TaskArn })
            (w.describeResults
            { Cluster := (taskCfg.SetClientToken payload.AuthToken).Cluster,
              TaskARN := awsToString t.TaskArn })) 0 with
        | none => exact Or.inl rfl
        | some p =>
          rcases p with ⟨waits, o⟩
          cases o with
          | error e => exact Or.inl rfl
          | ok outcome =>
            dsimp only
            cases (ADOCallback
                (w.httpExchange { Config := adoCfg, Payload := payload, Result := outcome })
                { Config := adoCfg, Payload := payload, Result := outcome }).2 with
            | error e => exact Or.inr ⟨outcome, rfl⟩
            | ok data => exact Or.inr ⟨outcome, rfl⟩

theorem processRecord_launch_mem (w : World) (adoCfg : ADOConfig)
    (taskCfg : ECSTaskConfig) (record : SQSRecord) (config : ECSTaskConfig)
    (h : BackendCall.launch config ∈ (processRecord w adoCfg taskCfg record).1) :
    ∃ payload, w.decode record.Body = Except.ok payload ∧
      config = taskCfg.SetClientToken payload.AuthToken := by
  rcases processRecord_trace_cases w adoCfg taskCfg record with
    h0 | ⟨payload, hdec, h1 | ⟨outcome, h2⟩⟩
  · rw [h0] at h
    simp at h
  · rw [h1] at h
    simp at h
    exact ⟨payload, hdec, h⟩
  · rw [h2] at h
    simp at h
    exact ⟨payload, hdec, h⟩

theorem handler_launch_mem (w : World) (adoCfg : ADOConfig) :
    ∀ (records : List SQSRecord) (taskCfg config : ECSTaskConfig),
    BackendCall.launch config ∈ (handler w adoCfg taskCfg records).1 →
    ∃ record ∈ records, ∃ payload, w.decode record.Body = Except.ok payload ∧
      config.ClientToken = GenerateClientToken payload.AuthToken := by
  intro records
  induction records with
  | nil =>
    intro taskCfg config h
    simp [handler] at h
  | cons record rest ih =>
    intro taskCfg config h
    unfold handler at h
    rcases hp : processRecord w adoCfg taskCfg record with ⟨calls, taskCfg1, out⟩
    rw [hp] at h
    have hfromRecord : BackendCall.launch config ∈ calls →
        ∃ r ∈ record :: rest, ∃ payload, w.decode r.Body = Except.ok payload ∧
          config.ClientToken = GenerateClientToken payload.AuthToken := by
      intro hc
      have hmem : BackendCall.launch config ∈ (processRecord w adoCfg taskCfg record).1 := by
        rw [hp]
        exact hc
      obtain ⟨payload, hdec, hcfg⟩ := processRecord_launch_mem w adoCfg taskCfg record config hmem
      exact ⟨record, List.mem_cons_self record rest, payload, hdec, by rw [hcfg]; rfl⟩
    cases out with
    | ok =>
      dsimp only at h
      rcases List.mem_append.mp h with hc | hrest
      · exact hfromRecord hc
      · obtain ⟨r, hr, payload, hdec, hcfg⟩ := ih taskCfg1 config hrest
        exact ⟨r, List.mem_cons_of_mem record hr, payload, hdec, hcfg⟩
    | fail e => exact hfromRecord h
    | panic => exact hfromRecord h
    | diverge => exact hfromRecord h

/-! ## C8: batch ordering and short-circuiting -/

/-- C8: the handler is strictly sequential over the batch.  A record whose
body fails to decode aborts the invocation with the decode error, no backend
call made and no remaining record processed; any record whose processing
fails aborts with exactly that record's error, calls and config, leaving the
rest unprocessed; a successful record's calls precede the rest's; and every
launch in an invocation's trace belongs to a record of the batch that decoded
successfully, carrying the token derived from that record's AuthToken. -/
theorem handler_batch_order (w : World) (adoCfg : ADOConfig) (taskCfg : ECSTaskConfig) :
    (∀ record rest e, w.decode record.Body = Except.error e →
       handler w adoCfg taskCfg (record :: rest) = ([], taskCfg, HandlerOutcome.fail e)) ∧
    (∀ record rest calls taskCfg1 e,
       processRecord w adoCfg taskCfg record = (calls, taskCfg1, HandlerOutcome.fail e) →
       handler w adoCfg taskCfg (record :: rest) = (calls, taskCfg1, HandlerOutcome.fail e)) ∧
    (∀ record rest calls taskCfg1,
       processRecord w adoCfg taskCfg record = (calls, taskCfg1, HandlerOutcome.ok) →
       handler w adoCfg taskCfg (record :: rest) =
         (calls ++ (handler w adoCfg taskCfg1 rest).1,
          (handler w adoCfg taskCfg1 rest).2.1, (handler w adoCfg taskCfg1 rest).2.2)) ∧
    (∀ records config, BackendCall.launch config ∈ (handler w adoCfg taskCfg records).1 →
       ∃ record ∈ records, ∃ payload, w.decode record.Body = Except.ok payload ∧
         config.ClientToken = GenerateClientToken payload.AuthToken) := by
  refine ⟨?_, ?_, ?_, fun records config h => handler_launch_mem w adoCfg records taskCfg config h⟩
  · intro record rest e hdec
    unfold handler
    have hp : processRecord w adoCfg taskCfg record = ([], taskCfg, HandlerOutcome.fail e) := by
      simp [processRecord, hdec]
    rw [hp]
  · intro record rest calls taskCfg1 e hp
    unfold handler
    rw [hp]
  · intro record rest calls taskCfg1 hp
    simp only [handler]
    rw [hp]

/-- Witness for C8: a two-record batch whose first body fails to decode
returns the decode error with no backend call and the second record
untouched. -/
theorem handler_batch_order_witness :
    handler wDecodeFail adoEx tcEx [⟨"not-json"⟩, ⟨"second"⟩] =
      ([], tcEx, HandlerOutcome.fail "invalid json") :=
  (handler_batch_order wDecodeFail adoEx tcEx).1 ⟨"not-json"⟩ [⟨"second"⟩] "invalid json" rfl

/-! ## C9: the unchecked `result.Tasks[0]` access -/

/-- One record's processing ends in the out-of-bounds panic exactly when the
launch call returned without error but with an empty task list. -/
theorem processRecord_panic_iff (w : World) (adoCfg : ADOConfig)
    (taskCfg : ECSTaskConfig) (record : SQSRecord) :
    (processRecord w adoCfg taskCfg record).2.2 = HandlerOutcome.panic ↔
    ∃ payload, w.decode record.Body = Except.ok payload ∧
      ∃ result, RunFargateTask w (taskCfg.SetClientToken payload.AuthToken) =
          Except.ok result ∧ result.Tasks = [] := by
  unfold processRecord
  cases hdec : w.decode record.Body with
  | error e => simp
  | ok payload =>
    dsimp only
    cases hrt : RunFargateTask w (taskCfg.SetClientToken payload.AuthToken) with
    | error e => simp [hrt]
    | ok result =>
      dsimp only
      cases hT : result.Tasks with
      | nil =>
        simp only [iff_true_intro rfl, true_iff]
        exact ⟨payload, rfl, result, hrt, hT⟩
      | cons t ts =>
        dsimp only
        have hright : ¬ ∃ payload2,
            (Except.ok payload : Except String ADOPayload) = Except.ok payload2 ∧
            ∃ result2, RunFargateTask w (taskCfg.SetClientToken payload2.AuthToken) =
              Except.ok result2 ∧ result2.Tasks = [] := by
          rintro ⟨payload2, hp2, result2, hrt2, hT2⟩
          cases hp2
          rw [hrt] at hrt2
          cases hrt2
          rw [hT] at hT2
          cases hT2
        rw [iff_false_intro hright]
        cases pollLoop (List.map (GetTaskLastStatus
            { Cluster := (taskCfg.SetClientToken payload.AuthToken).Cluster,
              TaskARN := awsToString t.TaskArn })
            (w.describeResults
            { Cluster := (taskCfg.SetClientToken payload.AuthToken).Cluster,
              TaskARN := awsToString t.TaskArn })) 0 with
        | none => simp
        | some p =>
          rcases p with ⟨waits, o⟩
          cases o with
          | error e => simp
          | ok outcome =>
            dsimp only
            cases (ADOCallback
                (w.httpExchange { Config := adoCfg, Payload := payload, Result := outcome })
                { Config := adoCfg, Payload := payload, Result := outcome }).2 with
            | error e => simp
            | ok data => simp

theorem handler_no_panic (w : World) (adoCfg : ADOConfig)
    (hw : ∀ config result, w.runTask config = Except.ok result → result.Tasks ≠ []) :
    ∀ (records : List SQSRecord) (taskCfg : ECSTaskConfig),
    (handler w adoCfg taskCfg records).2.2 ≠ HandlerOutcome.panic := by
  intro records
  induction records with
  | nil =>
    intro taskCfg
    simp [handler]
  | cons record rest ih =>
    intro taskCfg
    unfold handler
    rcases hp : processRecord w adoCfg taskCfg record with ⟨calls, taskCfg1, out⟩
    cases out with
    | ok => exact ih taskCfg1
    | fail e => simp
    | diverge => simp
    | panic =>
      exfalso
      have hpanic : (processRecord w adoCfg taskCfg record).2.2 = HandlerOutcome.panic := by
        rw [hp]
      obtain ⟨payload, _, result, hrt, hT⟩ :=
        (processRecord_panic_iff w adoCfg taskCfg record).mp hpanic
      exact hw (taskCfg.SetClientToken payload.AuthToken) result hrt hT

/-- C9: when decoding succeeds and the launch call returns `ok` with an empty
task list, the handler's unchecked read of `result.Tasks[0]` is out of bounds
and the iteration ends in a panic right after the launch call; conversely,
under the precondition that every non-error launch response carries at least
one task, no batch can make the handler panic. -/
theorem handler_empty_task_list_panics (w : World) (adoCfg : ADOConfig)
    (taskCfg : ECSTaskConfig) :
    (∀ record payload result, w.decode record.Body = Except.ok payload →
       RunFargateTask w (taskCfg.SetClientToken payload.AuthToken) = Except.ok result →
       result.Tasks = [] →
       processRecord w adoCfg taskCfg record =
         ([BackendCall.launch (taskCfg.SetClientToken payload.AuthToken)],
          taskCfg.SetClientToken payload.AuthToken, HandlerOutcome.panic)) ∧
    ((∀ config result, w.runTask config = Except.ok result → result.Tasks ≠ []) →
       ∀ records, (handler w adoCfg taskCfg records).2.2 ≠ HandlerOutcome.panic) := by
  constructor
  · intro record payload result hdec hrt hT
    unfold processRecord
    rw [hdec]
    dsimp only
    rw [hrt]
    dsimp only
    rw [hT]
  · intro hw records
    exact handler_no_panic w adoCfg hw records taskCfg

/-- Witness for C9: in a world whose launch call answers with an empty task
list, one message drives `processRecord` into the panic outcome. -/
theorem handler_empty_task_list_panics_witness :
    processRecord wEmptyTasks adoEx tcEx ⟨"msg"⟩ =
      ([BackendCall.launch (tcEx.SetClientToken "token123")],
       tcEx.SetClientToken "token123", HandlerOutcome.panic) :=
  (handler_empty_task_list_panics wEmptyTasks adoEx tcEx).1 ⟨"msg"⟩ payloadEx ⟨[]⟩ rfl rfl rfl
